import Mathlib

/-!
Shallow embedding of the OS.js VFS request dispatcher
(`src/utils/vfs.js`): path sanitization, prefix parsing, mountpoint
resolution with group-based authorization and read-only policy, the
cross-adapter rename/copy orchestration, and the error-to-status
response mapping.

JavaScript objects are modelled as association lists in insertion
order, JS truthiness of the relevant values is modelled by `Bool` /
`Option`, promise chains by explicit sequencing returning
`Except JsErr Value`, and the sequence of adapter invocations a request
performs is made observable as a `List Call` trace.  Adapter behaviour
(which the dispatcher treats as an opaque capability set) is a
parameter `beh : Call → Except JsErr Value`.
-/

namespace OsjsVfs

/-- A word character in the sense of the JS regex `\w`: ASCII letters,
digits and underscore. -/
def isWordChar (c : Char) : Bool := c.isAlphanum || c == '_'

/-- Modelled from the spec: the external Filename Sanitizer
(`sanitize-filename`, an external collaborator of the dispatcher, not
under `src/`) "given a single virtual path segment, returns a
filesystem-safe equivalent with unsafe characters/sequences removed".
This predicate marks the unsafe characters: path separators, the
characters illegal in filenames, and control characters. -/
def isIllegalFilenameChar (c : Char) : Bool :=
  c == '/' || c == '\\' || c == '?' || c == '<' || c == '>' ||
  c == ':' || c == '*' || c == '|' || c == '"' ||
  decide (c.toNat < 32) || decide (128 ≤ c.toNat ∧ c.toNat ≤ 159)

/-- Modelled from the spec: the Filename Sanitizer removes every unsafe
character from a segment (character-list level). -/
def sfChars (l : List Char) : List Char :=
  l.filter (fun c => !isIllegalFilenameChar c)

/-- Embeds `filename.replace(/\/+/g, '/')`: collapses every run of
consecutive slashes to a single slash. -/
def collapse : List Char → List Char
  | [] => []
  | [c] => [c]
  | a :: b :: rest =>
    if a == '/' && b == '/' then collapse (b :: rest)
    else a :: collapse (b :: rest)

/-- No two adjacent slashes: the invariant `collapse` establishes. -/
def noDS : List Char → Bool
  | [] => true
  | [_] => true
  | a :: b :: rest => !(a == '/' && b == '/') && noDS (b :: rest)

/-- Embeds the JS `String.prototype.split(sep)` for a one-character
separator: `jsSplit sep l` is the list of maximal separator-free
chunks, with empty chunks kept (as in JS). -/
def jsSplit (sep : Char) : List Char → List (List Char)
  | [] => [[]]
  | c :: cs =>
    if c == sep then [] :: jsSplit sep cs
    else
      match jsSplit sep cs with
      | [] => [[c]]
      | s :: ss => (c :: s) :: ss

/-- Embeds the JS `Array.prototype.join(sep)` for a one-character
separator. -/
def jsJoin (sep : Char) : List (List Char) → List Char
  | [] => []
  | [s] => s
  | s :: ss => s ++ sep :: jsJoin sep ss

/-- Embeds the JS regex match `^(\w+):(.*)`: succeeds iff the string
starts with one or more word characters immediately followed by a
colon; the first group is that word-character run, the second group is
what follows the colon up to (excluding) the first newline, since the
JS `.` does not match newlines. -/
def matchPrefixColon (l : List Char) : Option (List Char × List Char) :=
  let p := l.takeWhile isWordChar
  let rest := l.dropWhile isWordChar
  if p = [] then none
  else if rest.head? = some ':' then some (p, rest.tail.takeWhile (fun c => c ≠ '\n'))
  else none

/-- Embeds `sanitize` from `src/utils/vfs.js` at the character-list
level.  The JS function destructures the match result of
`^(\w+):(.*)` on the slash-collapsed input; when the match fails the
destructured pair is `undefined` and the subsequent `str.split('/')`
throws, which is modelled by `none`.  On success each segment of the
remainder is passed through the Filename Sanitizer, rejoined and
slash-collapsed, and the result is `name + ':' + sane`. -/
def sanitizeChars (l : List Char) : Option (List Char) :=
  match matchPrefixColon (collapse l) with
  | none => none
  | some (name, str) =>
    let sane := collapse (jsJoin '/' ((jsSplit '/' str).map sfChars))
    some (name ++ ':' :: sane)

/-- Embeds `sanitize` from `src/utils/vfs.js` on strings; `none` models
the thrown `TypeError` when the prefix match fails. -/
def sanitize (s : String) : Option String :=
  (sanitizeChars s.data).map String.mk

/-- Embeds `getPrefix` from `src/utils/vfs.js`:
`str => String(str).split(':')[0]`, the chunk of the path before the
first colon (the whole string when it has no colon). -/
def getPrefixOf (s : String) : String :=
  String.mk ((jsSplit ':' s.data).headD [])

/-- An entry of a mountpoint's `attributes.groups` collection: either a
bare group name (a JS string) or an operation-to-groups mapping (a JS
object, modelled as an association list). -/
inductive GroupEntry where
  | named (g : String)
  | mapping (m : List (String × List String))
  deriving DecidableEq

/-- A configured mountpoint: its unique `name`, its optional declared
adapter identifier (`none` models an absent/falsy `adapter` property),
its `attributes.groups` collection (`[]` models an absent one, as in
the JS `|| []`), and the truthiness of its `attributes.readOnly`. -/
structure Mountpoint where
  name : String
  adapter : Option String
  groups : List GroupEntry
  readOnly : Bool
  deriving DecidableEq

/-- An adapter: `tag` models the JS object identity of the adapter
module, `ops` the set of endpoint names for which
`adapter[endpoint]` is defined. -/
structure Adapter where
  tag : String
  ops : List String
  deriving DecidableEq

/-- The provider state the dispatcher reads: the ordered mountpoint
registry and the named adapter registry. -/
structure Provider where
  mountpoints : List Mountpoint
  adapters : List (String × Adapter)
  deriving DecidableEq

/-- A request's parsed field mapping (a JS object in insertion order,
keys such as `path`, `from`, `to`, `root`). -/
abbrev Fields := List (String × String)

/-- A value produced by an adapter call: a transferable content buffer,
a boolean, a string, or a JS null/undefined-like result. -/
inductive Value where
  | buffer (data : String)
  | bool (b : Bool)
  | str (s : String)
  | null
  deriving DecidableEq

/-- The request's uploaded-files mapping (e.g. `{upload: ab}` in the
cross-adapter orchestration). -/
abbrev Files := List (String × Value)

/-- The `code` property carried by an error: a numeric HTTP-style
status, a storage-layer string code, or absent (`undefined`). -/
inductive ErrCode where
  | num (n : Nat)
  | str (s : String)
  | undef
  deriving DecidableEq

/-- A JS error as the dispatcher observes it: its `message` and its
`code` property.  `VFSError` instances carry a numeric code; plain
`Error` wrappers carry none. -/
structure JsErr where
  message : String
  code : ErrCode
  deriving DecidableEq

/-- The per-operation read-only override handed to the resolver: either
a plain boolean or a policy function computing, from the request
fields, the value whose prefix is the true write target. -/
inductive ROOverride where
  | bool (b : Bool)
  | fn (f : Fields → String)

/-- One adapter invocation performed by the dispatcher, i.e. one
`vfsMethods[method](req, res, fields, files)(core, adapter, mountpoint)`
call: the adapter's identity, the mountpoint name it was bound to, the
endpoint name and the fields/files it received. -/
structure Call where
  adapter : String
  mount : String
  endpoint : String
  fields : Fields
  files : Files
  deriving DecidableEq

/-- What the dispatcher ultimately does with the response channel:
stream a byte payload (`result.pipe(res)` for `readfile`), JSON-encode
a result (`res.json(result)`), emit a structured error
(`res.status(code).json({error: message})`), or reject without
responding (an exception thrown before the promise chain's `catch`,
as the sanitization `TypeError` is). -/
inductive Response where
  | streamed (v : Value)
  | json (v : Value)
  | error (status : Nat) (message : String)
  | unhandled
  deriving DecidableEq

/-- Embeds the JS `String(x)` coercion applied to a field lookup:
an absent value (`undefined`) prints as the string `undefined`. -/
def jsString : Option String → String
  | some s => s
  | none => "undefined"

/-- Property lookup `fields[k]` on a JS object modelled as an
association list. -/
def lookupField (fields : Fields) (k : String) : Option String :=
  (fields.find? (fun kv => kv.1 == k)).map (fun kv => kv.2)

/-- Property assignment `fields[k] = v` on a JS object modelled as an
association list (keys are unique in a JS object). -/
def setField (fields : Fields) (k v : String) : Fields :=
  fields.map (fun kv => if kv.1 == k then (k, v) else kv)

/-- Embeds `validateGroups` from `src/utils/vfs.js`: the bare string
entries of the mountpoint's groups must all be held by the caller, and
if some mapping entry contains the method name, the first such entry's
groups for that method must all be held as well; with no declared
groups everything is allowed. -/
def validateGroups (userGroups : List String) (method : String) (mountpoint : Mountpoint) : Bool :=
  let all := fun (arr compare : List String) => arr.all (fun g => compare.contains g)
  let groups := mountpoint.groups
  if groups.length ≠ 0 then
    let namedGroups := groups.filterMap (fun g =>
      match g with
      | GroupEntry.named s => some s
      | GroupEntry.mapping _ => none)
    let methodGroups := groups.find? (fun g =>
      match g with
      | GroupEntry.named _ => false
      | GroupEntry.mapping m => m.any (fun kv => kv.1 == method))
    let namedValid := if namedGroups.length ≠ 0 then all namedGroups userGroups else true
    let methodValid :=
      match methodGroups with
      | some (GroupEntry.mapping m) =>
        match m.find? (fun kv => kv.1 == method) with
        | some kv => all kv.2 userGroups
        | none => true
      | _ => true
    namedValid && methodValid
  else
    true

/-- Embeds `checkReadOnly` from `src/utils/vfs.js`: nothing is blocked
unless the mountpoint's `readOnly` attribute is truthy; then a
function-valued override blocks iff the prefix of the value it computes
from the fields equals the mountpoint's name, and a boolean override is
itself the decision. -/
def checkReadOnly (ro : ROOverride) (mountpoint : Mountpoint) (fields : Fields) : Bool :=
  if mountpoint.readOnly then
    match ro with
    | ROOverride.fn f => decide (getPrefixOf (f fields) = mountpoint.name)
    | ROOverride.bool b => b
  else
    false

/-- Embeds `getAdapter` from `src/utils/vfs.js`: the registry entry for
the mountpoint's declared adapter identifier when that is truthy, the
`system` entry otherwise; `none` models an identifier missing from the
registry (`provider.adapters[...]` being `undefined`). -/
def getAdapter (provider : Provider) (mountpoint : Mountpoint) : Option Adapter :=
  let key :=
    match mountpoint.adapter with
    | some a => if a = "" then "system" else a
    | none => "system"
  (provider.adapters.find? (fun kv => kv.1 == key)).map (fun kv => kv.2)

/-- Modelled from the spec: the Operation Handler Set
(`../vfs/methods`, repository code not under `src/`), "a fixed mapping
from every supported operation name to its field/invocation contract";
only the set of its keys is observable to the dispatcher. -/
def vfsMethods : List String :=
  ["readfile", "writefile", "rename", "copy", "unlink", "readdir", "mkdir", "stat"]

/-- Embeds `resolveMountpoint` from `src/utils/vfs.js`: find the first
known path-bearing field, take its prefix, look the mountpoint up by
name, enforce the read-only policy and group authorization, bind the
adapter, and require the endpoint to exist both in the handler set and
on the adapter.  Classified failures are `VFSError`s with a numeric
code; a registered-but-missing adapter reproduces the JS `TypeError`
of reading a property of `undefined` (an error without a code). -/
def resolveMountpoint (provider : Provider) (endpoint : String) (fields : Fields)
    (userGroups : List String) (ro : ROOverride) : Except JsErr (Adapter × Mountpoint) :=
  let known := ["path", "from", "root"]
  let field := (fields.map Prod.fst).find? (fun k => known.contains k)
  let pfx := getPrefixOf (jsString (field.bind (fun k => lookupField fields k)))
  let mountpoint := if pfx ≠ "" then provider.mountpoints.find? (fun m => m.name == pfx) else none
  match mountpoint with
  | none => Except.error ⟨"Mountpoint not found for \x27" ++ pfx ++ "\x27", ErrCode.num 403⟩
  | some mp =>
    if checkReadOnly ro mp fields then
      Except.error ⟨"Mountpoint \x27" ++ pfx ++ " is read-only\x27", ErrCode.num 403⟩
    else if !validateGroups userGroups endpoint mp then
      Except.error ⟨"Permission was denied for \x27" ++ endpoint ++ "\x27 in \x27" ++ pfx ++ "\x27",
        ErrCode.num 403⟩
    else
      match getAdapter provider mp with
      | some adapter =>
        if !vfsMethods.contains endpoint || !adapter.ops.contains endpoint then
          Except.error ⟨"VFS Endpoint \x27" ++ endpoint ++ " was not valid for this mountpoint.\x27",
            ErrCode.num 401⟩
        else
          Except.ok (adapter, mp)
      | none =>
        if !vfsMethods.contains endpoint then
          Except.error ⟨"VFS Endpoint \x27" ++ endpoint ++ " was not valid for this mountpoint.\x27",
            ErrCode.num 401⟩
        else
          Except.error ⟨"Cannot read property of undefined", ErrCode.undef⟩

/-- Embeds the `errorCodes` table from `src/utils/vfs.js`. -/
def errorCodes : List (String × Nat) := [("ENOENT", 404), ("EACCES", 401)]

/-- Embeds the status computation of `respondError`: a numeric `code`
is used as-is, a string code goes through `errorCodes` and defaults to
400, an absent code defaults to 400 (`errorCodes[undefined] || 400`). -/
def respondStatus : ErrCode → Nat
  | ErrCode.num n => n
  | ErrCode.str s =>
    match errorCodes.find? (fun kv => kv.1 == s) with
    | some kv => kv.2
    | none => 400
  | ErrCode.undef => 400

/-- Embeds `error.toString()` for the `Error`/`VFSError` instances the
dispatcher handles: the inherited name `Error`, a colon, the message. -/
def errToString (e : JsErr) : String := "Error: " ++ e.message

/-- Embeds `new Error(e)` in the dispatcher's catch block: the message
becomes `String(e)` and the wrapper carries no `code` property. -/
def wrapError (e : JsErr) : JsErr := ⟨errToString e, ErrCode.undef⟩

/-- One step of the dispatcher's field sanitization: when the key is
present its value is replaced by its sanitization, and a sanitization
throw (`none`) aborts. -/
def sanitizeField (fields : Fields) (k : String) : Option Fields :=
  match lookupField fields k with
  | none => some fields
  | some v => (sanitize v).map (fun v2 => setField fields k v2)

/-- Embeds the dispatcher's sanitization loop over
`['path', 'from', 'to', 'root']`. -/
def sanitizeFields (fields : Fields) : Option Fields :=
  (sanitizeField fields ("path")).bind (fun f1 =>
    (sanitizeField f1 ("from")).bind (fun f2 =>
      (sanitizeField f2 ("to")).bind (fun f3 =>
        sanitizeField f3 ("root"))))

/-- A single adapter invocation
`request(endpoint, fields, files)(adapter, mountpoint)`: one call in
the trace, with the adapter behaviour's outcome. -/
def runSingle (beh : Call → Except JsErr Value) (adapter : Adapter) (mountpoint : Mountpoint)
    (endpoint : String) (fields : Fields) (files : Files) :
    List Call × Except JsErr Value :=
  let c : Call := ⟨adapter.tag, mountpoint.name, endpoint, fields, files⟩
  ([c], beh c)

/-- Embeds the cross-adapter promise chain of `request`: `readfile` on
the source with `{path: fields.from}`, then `writefile` on the
destination with the read buffer as `{upload: ab}`, then — only for
`rename` — `unlink` on the source, resolving to `true`; a rejection at
any step short-circuits the remaining `then`s. -/
def runComposite (beh : Call → Except JsErr Value) (srcAdapter : Adapter) (srcMount : Mountpoint)
    (dstAdapter : Adapter) (dstMount : Mountpoint) (endpoint ffrom fto : String) :
    List Call × Except JsErr Value :=
  let c1 : Call := ⟨srcAdapter.tag, srcMount.name, "readfile", [("path", ffrom)], []⟩
  match beh c1 with
  | Except.error e => ([c1], Except.error e)
  | Except.ok ab =>
    let c2 : Call := ⟨dstAdapter.tag, dstMount.name, "writefile", [("path", fto)], [("upload", ab)]⟩
    match beh c2 with
    | Except.error e => ([c1, c2], Except.error e)
    | Except.ok _ =>
      if endpoint = "rename" then
        let c3 : Call := ⟨srcAdapter.tag, srcMount.name, "unlink", [("path", ffrom)], []⟩
        match beh c3 with
        | Except.error e => ([c1, c2, c3], Except.error e)
        | Except.ok _ => ([c1, c2, c3], Except.ok (Value.bool true))
      else
        ([c1, c2], Except.ok (Value.bool true))

/-- The dispatcher's generic branch: resolve the endpoint against the
full field mapping and invoke the bound adapter operation.  The outer
`Except` is a synchronous resolver throw. -/
def singleDispatch (provider : Provider) (endpoint : String) (ro : ROOverride)
    (userGroups : List String) (fields : Fields) (files : Files)
    (beh : Call → Except JsErr Value) :
    Except JsErr (List Call × Except JsErr Value) :=
  match resolveMountpoint provider endpoint fields userGroups ro with
  | Except.error e => Except.error e
  | Except.ok (adapter, mountpoint) =>
    Except.ok (runSingle beh adapter mountpoint endpoint fields files)

/-- Embeds the `try` block of `request`: for `rename`/`copy`, resolve
the source field against `readfile` with override `false` and the
destination field against `writefile` with override `true`; orchestrate
when the two mountpoints' declared adapter identifiers differ,
otherwise fall through (promise still unset) to the generic branch.
The outer `Except.error` is a synchronous throw caught by the JS
`catch`. -/
def tryBlock (provider : Provider) (endpoint : String) (ro : ROOverride)
    (userGroups : List String) (fields : Fields) (files : Files)
    (beh : Call → Except JsErr Value) :
    Except JsErr (List Call × Except JsErr Value) :=
  if endpoint = "rename" ∨ endpoint = "copy" then
    match resolveMountpoint provider ("readfile") [("path", jsString (lookupField fields ("from")))]
        userGroups (ROOverride.bool false) with
    | Except.error e => Except.error e
    | Except.ok (srcAdapter, srcMount) =>
      match resolveMountpoint provider ("writefile") [("path", jsString (lookupField fields ("to")))]
          userGroups (ROOverride.bool true) with
      | Except.error e => Except.error e
      | Except.ok (dstAdapter, dstMount) =>
        if srcMount.adapter = dstMount.adapter then
          singleDispatch provider endpoint ro userGroups fields files beh
        else
          Except.ok (runComposite beh srcAdapter srcMount dstAdapter dstMount endpoint
            (jsString (lookupField fields ("from"))) (jsString (lookupField fields ("to"))))
  else
    singleDispatch provider endpoint ro userGroups fields files beh

/-- The tail of the dispatcher's promise chain: a fulfilled result is
streamed for `readfile` and JSON-encoded otherwise; a rejection goes
through `respondError`. -/
def finish (endpoint : String) : List Call × Except JsErr Value → List Call × Response
  | (trace, Except.error e) =>
    (trace, Response.error (respondStatus e.code) (errToString e))
  | (trace, Except.ok v) =>
    if endpoint = "readfile" then (trace, Response.streamed v)
    else (trace, Response.json v)

/-- Embeds the body of `request` from `src/utils/vfs.js` after field
parsing: sanitize the path-bearing fields (a sanitization throw escapes
before any handler is attached, so no response is emitted), run the
`try` block, wrap a synchronous throw in `new Error(e)` (losing its
`code`), and map the promise's outcome to the response channel.  The
first component is the exact sequence of adapter invocations
performed. -/
def requestModel (provider : Provider) (endpoint : String) (ro : ROOverride)
    (userGroups : List String) (fields : Fields) (files : Files)
    (beh : Call → Except JsErr Value) : List Call × Response :=
  match sanitizeFields fields with
  | none => ([], Response.unhandled)
  | some f2 =>
    match tryBlock provider endpoint ro userGroups f2 files beh with
    | Except.error e =>
      ([], Response.error (respondStatus (wrapError e).code) (errToString (wrapError e)))
    | Except.ok r => finish endpoint r

/-! Claim-side projections of a mountpoint's group declarations,
following the spec's two separately-typed collections. -/

/-- The bare group names a mountpoint declares (unconditional
requirements). -/
def bareGroups (mp : Mountpoint) : List String :=
  mp.groups.filterMap (fun g =>
    match g with
    | GroupEntry.named s => some s
    | GroupEntry.mapping _ => none)

/-- The groups the mountpoint's per-operation mapping requires for an
operation: the first mapping entry containing the operation name,
looked up at that name; `none` when no mapping entry names the
operation. -/
def methodEntry (method : String) (mp : Mountpoint) : Option (List String) :=
  match mp.groups.find? (fun g =>
    match g with
    | GroupEntry.named _ => false
    | GroupEntry.mapping m => m.any (fun kv => kv.1 == method)) with
  | some (GroupEntry.mapping m) => (m.find? (fun kv => kv.1 == method)).map (fun kv => kv.2)
  | _ => none

/-- The shape the `sanitize` regex requires, stated the way the claim
words it: a non-empty word-character prefix followed by a colon. -/
def wordColonShape (s : String) : Prop :=
  ∃ p rest, s.data = p ++ ':' :: rest ∧ p ≠ [] ∧ ∀ c ∈ p, isWordChar c = true

/-- The reduced form `resolveMountpoint` takes on a singleton
`[("path", v)]` field mapping, once the field search has found `path`;
definitionally equal to it (see `resolveMountpoint_singleton`). -/
def resolveStep (provider : Provider) (endpoint : String) (v : String)
    (userGroups : List String) (ro : ROOverride) : Except JsErr (Adapter × Mountpoint) :=
  let pfx := getPrefixOf v
  let mountpoint := if pfx ≠ "" then provider.mountpoints.find? (fun m => m.name == pfx) else none
  match mountpoint with
  | none => Except.error ⟨"Mountpoint not found for \x27" ++ pfx ++ "\x27", ErrCode.num 403⟩
  | some mp =>
    if checkReadOnly ro mp [("path", v)] then
      Except.error ⟨"Mountpoint \x27" ++ pfx ++ " is read-only\x27", ErrCode.num 403⟩
    else if !validateGroups userGroups endpoint mp then
      Except.error ⟨"Permission was denied for \x27" ++ endpoint ++ "\x27 in \x27" ++ pfx ++ "\x27",
        ErrCode.num 403⟩
    else
      match getAdapter provider mp with
      | some adapter =>
        if !vfsMethods.contains endpoint || !adapter.ops.contains endpoint then
          Except.error ⟨"VFS Endpoint \x27" ++ endpoint ++ " was not valid for this mountpoint.\x27",
            ErrCode.num 401⟩
        else
          Except.ok (adapter, mp)
      | none =>
        if !vfsMethods.contains endpoint then
          Except.error ⟨"VFS Endpoint \x27" ++ endpoint ++ " was not valid for this mountpoint.\x27",
            ErrCode.num 401⟩
        else
          Except.error ⟨"Cannot read property of undefined", ErrCode.undef⟩

lemma resolveMountpoint_singleton (provider : Provider) (endpoint : String) (v : String)
    (userGroups : List String) (ro : ROOverride) :
    resolveMountpoint provider endpoint [("path", v)] userGroups ro =
      resolveStep provider endpoint v userGroups ro := rfl

/-! Routing lemmas: how `requestModel` reduces under the possible
outcomes of the `try` block. -/

lemma tryBlock_single_eq (provider : Provider) (endpoint : String) (ro : ROOverride)
    (userGroups : List String) (fields : Fields) (files : Files)
    (beh : Call → Except JsErr Value) (a : Adapter) (m : Mountpoint)
    (hne : ¬(endpoint = "rename" ∨ endpoint = "copy"))
    (hres : resolveMountpoint provider endpoint fields userGroups ro = Except.ok (a, m)) :
    tryBlock provider endpoint ro userGroups fields files beh =
      Except.ok (runSingle beh a m endpoint fields files) := by
  unfold tryBlock singleDispatch
  rw [if_neg hne, hres]

lemma tryBlock_single_throw (provider : Provider) (endpoint : String) (ro : ROOverride)
    (userGroups : List String) (fields : Fields) (files : Files)
    (beh : Call → Except JsErr Value) (e : JsErr)
    (hne : ¬(endpoint = "rename" ∨ endpoint = "copy"))
    (hres : resolveMountpoint provider endpoint fields userGroups ro = Except.error e) :
    tryBlock provider endpoint ro userGroups fields files beh = Except.error e := by
  unfold tryBlock singleDispatch
  rw [if_neg hne, hres]

lemma tryBlock_cross_eq (provider : Provider) (endpoint : String) (ro : ROOverride)
    (userGroups : List String) (fields : Fields) (files : Files)
    (beh : Call → Except JsErr Value) (srcA dstA : Adapter) (srcM dstM : Mountpoint)
    (hep : endpoint = "rename" ∨ endpoint = "copy")
    (h1 : resolveMountpoint provider ("readfile")
      [("path", jsString (lookupField fields ("from")))] userGroups (ROOverride.bool false) =
      Except.ok (srcA, srcM))
    (h2 : resolveMountpoint provider ("writefile")
      [("path", jsString (lookupField fields ("to")))] userGroups (ROOverride.bool true) =
      Except.ok (dstA, dstM))
    (hdiff : srcM.adapter ≠ dstM.adapter) :
    tryBlock provider endpoint ro userGroups fields files beh =
      Except.ok (runComposite beh srcA srcM dstA dstM endpoint
        (jsString (lookupField fields ("from"))) (jsString (lookupField fields ("to")))) := by
  unfold tryBlock
  simp only [if_pos hep, h1, h2, if_neg hdiff]

lemma tryBlock_same_eq (provider : Provider) (endpoint : String) (ro : ROOverride)
    (userGroups : List String) (fields : Fields) (files : Files)
    (beh : Call → Except JsErr Value) (srcA dstA a : Adapter) (srcM dstM m : Mountpoint)
    (hep : endpoint = "rename" ∨ endpoint = "copy")
    (h1 : resolveMountpoint provider ("readfile")
      [("path", jsString (lookupField fields ("from")))] userGroups (ROOverride.bool false) =
      Except.ok (srcA, srcM))
    (h2 : resolveMountpoint provider ("writefile")
      [("path", jsString (lookupField fields ("to")))] userGroups (ROOverride.bool true) =
      Except.ok (dstA, dstM))
    (hsame : srcM.adapter = dstM.adapter)
    (hres : resolveMountpoint provider endpoint fields userGroups ro = Except.ok (a, m)) :
    tryBlock provider endpoint ro userGroups fields files beh =
      Except.ok (runSingle beh a m endpoint fields files) := by
  unfold tryBlock singleDispatch
  simp only [if_pos hep, h1, h2, if_pos hsame, hres]

lemma tryBlock_cross_throw1 (provider : Provider) (endpoint : String) (ro : ROOverride)
    (userGroups : List String) (fields : Fields) (files : Files)
    (beh : Call → Except JsErr Value) (e : JsErr)
    (hep : endpoint = "rename" ∨ endpoint = "copy")
    (h1 : resolveMountpoint provider ("readfile")
      [("path", jsString (lookupField fields ("from")))] userGroups (ROOverride.bool false) =
      Except.error e) :
    tryBlock provider endpoint ro userGroups fields files beh = Except.error e := by
  unfold tryBlock
  rw [if_pos hep, h1]

lemma tryBlock_cross_throw2 (provider : Provider) (endpoint : String) (ro : ROOverride)
    (userGroups : List String) (fields : Fields) (files : Files)
    (beh : Call → Except JsErr Value) (srcA : Adapter) (srcM : Mountpoint) (e : JsErr)
    (hep : endpoint = "rename" ∨ endpoint = "copy")
    (h1 : resolveMountpoint provider ("readfile")
      [("path", jsString (lookupField fields ("from")))] userGroups (ROOverride.bool false) =
      Except.ok (srcA, srcM))
    (h2 : resolveMountpoint provider ("writefile")
      [("path", jsString (lookupField fields ("to")))] userGroups (ROOverride.bool true) =
      Except.error e) :
    tryBlock provider endpoint ro userGroups fields files beh = Except.error e := by
  unfold tryBlock
  rw [if_pos hep, h1, h2]

lemma requestModel_of_tryBlock_ok (provider : Provider) (endpoint : String) (ro : ROOverride)
    (userGroups : List String) (fields f2 : Fields) (files : Files)
    (beh : Call → Except JsErr Value) (r : List Call × Except JsErr Value)
    (hs : sanitizeFields fields = some f2)
    (ht : tryBlock provider endpoint ro userGroups f2 files beh = Except.ok r) :
    requestModel provider endpoint ro userGroups fields files beh = finish endpoint r := by
  unfold requestModel
  simp only [hs, ht]

lemma requestModel_of_tryBlock_throw (provider : Provider) (endpoint : String) (ro : ROOverride)
    (userGroups : List String) (fields f2 : Fields) (files : Files)
    (beh : Call → Except JsErr Value) (e : JsErr)
    (hs : sanitizeFields fields = some f2)
    (ht : tryBlock provider endpoint ro userGroups f2 files beh = Except.error e) :
    requestModel provider endpoint ro userGroups fields files beh =
      ([], Response.error 400 (errToString (wrapError e))) := by
  unfold requestModel
  simp only [hs, ht]
  rfl

/-- Claim C1: for every request whose resolution fails, the resolver
raises a `VFSError` whose numeric code is 403 for mountpoint-not-found,
mountpoint-read-only and permission-denied and 401 for an unsupported
endpoint — but the status actually delivered to the client is 400 for
all of them, because the dispatcher's catch block rewraps the thrown
error in `new Error(e)`, which discards the `code` property, and
`respondError` then falls back to its 400 default.  The final conjunct
evaluates the dispatcher at the claim's own scenario (prefix `ghost:`
absent from the registry): the body still contains the
"Mountpoint not found" message, but the delivered status is 400, not
the claimed 403. -/
theorem vfs_C1_resolver_codes_dispatcher_delivers_400 :
    (resolveMountpoint ⟨[], []⟩ ("readfile") [("path", "ghost:/x")] [] (ROOverride.bool false) =
      Except.error ⟨"Mountpoint not found for \x27ghost\x27", ErrCode.num 403⟩) ∧
    (resolveMountpoint ⟨[⟨"ro", none, [], true⟩], []⟩ ("writefile") [("path", "ro:/x")] []
        (ROOverride.bool true) =
      Except.error ⟨"Mountpoint \x27ro is read-only\x27", ErrCode.num 403⟩) ∧
    (resolveMountpoint ⟨[⟨"g", none, [GroupEntry.named ("admin")], false⟩], []⟩ ("writefile")
        [("path", "g:/x")] [] (ROOverride.bool true) =
      Except.error ⟨"Permission was denied for \x27writefile\x27 in \x27g\x27", ErrCode.num 403⟩) ∧
    (resolveMountpoint ⟨[⟨"m", none, [], false⟩], [("system", ⟨"sysA", ["readfile"]⟩)]⟩
        ("writefile") [("path", "m:/x")] [] (ROOverride.bool true) =
      Except.error ⟨"VFS Endpoint \x27writefile was not valid for this mountpoint.\x27",
        ErrCode.num 401⟩) ∧
    (requestModel ⟨[], []⟩ ("readfile") (ROOverride.bool false) [] [("path", "ghost:/x")] []
        (fun _ => Except.ok Value.null) =
      ([], Response.error 400 ("Error: Error: Mountpoint not found for \x27ghost\x27"))) := by
  refine ⟨rfl, rfl, rfl, rfl, rfl⟩

/-- Claim C5: the read-only check never blocks when the mountpoint's
`readOnly` attribute is falsy; on a read-only mountpoint a
function-valued override blocks exactly when the prefix of the value it
computes from the fields equals the mountpoint's name, and a boolean
override is itself the decision. -/
theorem vfs_C5_readonly_check :
    (∀ (ro : ROOverride) (mp : Mountpoint) (fields : Fields),
      mp.readOnly = false → checkReadOnly ro mp fields = false) ∧
    (∀ (f : Fields → String) (mp : Mountpoint) (fields : Fields), mp.readOnly = true →
      (checkReadOnly (ROOverride.fn f) mp fields = true ↔ getPrefixOf (f fields) = mp.name)) ∧
    (∀ (b : Bool) (mp : Mountpoint) (fields : Fields), mp.readOnly = true →
      checkReadOnly (ROOverride.bool b) mp fields = b) := by
  refine ⟨?_, ?_, ?_⟩
  · intro ro mp fields h
    unfold checkReadOnly
    rw [h]
    rfl
  · intro f mp fields h
    unfold checkReadOnly
    rw [h]
    simp
  · intro b mp fields h
    unfold checkReadOnly
    rw [h]
    rfl

/-- Witness for C5: a falsy `readOnly` attribute defeats a `true`
override, and on a read-only mountpoint the boolean override decides. -/
theorem vfs_C5_readonly_check_witness :
    checkReadOnly (ROOverride.bool true) ⟨"m", none, [], false⟩ [] = false ∧
    checkReadOnly (ROOverride.bool true) ⟨"m", none, [], true⟩ [] = true :=
  ⟨vfs_C5_readonly_check.1 _ _ _ rfl, vfs_C5_readonly_check.2.2 true _ [] rfl⟩

/-- Claim C8 (confirmed): an error surfacing from an adapter call keeps
its own `code`: a numeric code becomes the delivered status, the string
codes `ENOENT` and `EACCES` map through the fixed table to 404 and 401,
any other string code and an absent code default to 400, and the
response is the structured error payload built from the error's
message. -/
theorem vfs_C8_error_status_mapping :
    (∀ n, respondStatus (ErrCode.num n) = n) ∧
    respondStatus (ErrCode.str ("ENOENT")) = 404 ∧
    respondStatus (ErrCode.str ("EACCES")) = 401 ∧
    (∀ s, s ≠ "ENOENT" → s ≠ "EACCES" → respondStatus (ErrCode.str s) = 400) ∧
    respondStatus ErrCode.undef = 400 ∧
    (∀ (provider : Provider) (endpoint : String) (ro : ROOverride) (userGroups : List String)
      (fields f2 : Fields) (files : Files) (beh : Call → Except JsErr Value)
      (a : Adapter) (m : Mountpoint) (e : JsErr),
      ¬(endpoint = "rename" ∨ endpoint = "copy") →
      sanitizeFields fields = some f2 →
      resolveMountpoint provider endpoint f2 userGroups ro = Except.ok (a, m) →
      beh ⟨a.tag, m.name, endpoint, f2, files⟩ = Except.error e →
      requestModel provider endpoint ro userGroups fields files beh =
        ([⟨a.tag, m.name, endpoint, f2, files⟩],
          Response.error (respondStatus e.code) (errToString e))) := by
  refine ⟨fun n => rfl, rfl, rfl, ?_, rfl, ?_⟩
  · intro s h1 h2
    have e1 : (("ENOENT" : String) == s) = false := beq_eq_false_iff_ne.mpr (Ne.symm h1)
    have e2 : (("EACCES" : String) == s) = false := beq_eq_false_iff_ne.mpr (Ne.symm h2)
    unfold respondStatus errorCodes
    simp only [List.find?, e1, e2]
  · intro provider endpoint ro userGroups fields f2 files beh a m e hne hs hres hbeh
    rw [requestModel_of_tryBlock_ok provider endpoint ro userGroups fields f2 files beh _ hs
      (tryBlock_single_eq provider endpoint ro userGroups f2 files beh a m hne hres)]
    unfold runSingle finish
    simp only [hbeh]

/-- Witness for C8: a storage-layer error with the unrecognized string
code `EWEIRD` is delivered with the default status 400 and the
structured error body. -/
theorem vfs_C8_error_status_mapping_witness :
    requestModel ⟨[⟨"m", none, [], false⟩], [("system", ⟨"sysA", ["readfile"]⟩)]⟩ ("readfile")
      (ROOverride.bool false) [] [("path", "m:/x")] []
      (fun _ => Except.error ⟨"u", ErrCode.str ("EWEIRD")⟩) =
    ([⟨"sysA", "m", "readfile", [("path", "m:/x")], []⟩],
      Response.error 400 ("Error: u")) := by
  exact vfs_C8_error_status_mapping.2.2.2.2.2
    ⟨[⟨"m", none, [], false⟩], [("system", ⟨"sysA", ["readfile"]⟩)]⟩ ("readfile")
    (ROOverride.bool false) [] [("path", "m:/x")] [("path", "m:/x")] []
    (fun _ => Except.error ⟨"u", ErrCode.str ("EWEIRD")⟩)
    ⟨"sysA", ["readfile"]⟩ ⟨"m", none, [], false⟩ ⟨"u", ErrCode.str ("EWEIRD")⟩
    (by decide) rfl rfl rfl

/-- Counterexample to C7: `getPrefix` of a path with no colon is the
whole string, not an empty/undefined prefix, and resolution then
succeeds whenever a mountpoint carries exactly that name — here the
path `home` (no colon) resolves against the mountpoint named `home`. -/
theorem vfs_C7_counterexample :
    getPrefixOf ("home") = "home" ∧ getPrefixOf ("home") ≠ "" ∧
    resolveMountpoint ⟨[⟨"home", none, [], false⟩], [("system", ⟨"sysA", ["readfile"]⟩)]⟩
        ("readfile") [("path", "home")] [] (ROOverride.bool false) =
      Except.ok (⟨"sysA", ["readfile"]⟩, ⟨"home", none, [], false⟩) := by
  refine ⟨rfl, by decide, rfl⟩

/-- Claim C2 (confirmed): for a cross-adapter `rename`/`copy` (the two
resolved mountpoints declaring different adapters), the dispatcher
performs exactly `readfile` on the source adapter, then `writefile` on
the destination adapter with the read buffer as the `upload` payload,
then — only for `rename` — `unlink` on the source adapter; when all
required steps succeed, the composite's final result is `true`
(JSON-encoded); a failure at any step leaves exactly the calls made so
far in the trace (no further step, no rollback call) and surfaces that
step's own error. -/
theorem vfs_C2_cross_adapter_sequence (provider : Provider) (endpoint : String)
    (ro : ROOverride) (userGroups : List String) (fields f2 : Fields) (files : Files)
    (beh : Call → Except JsErr Value) (srcA dstA : Adapter) (srcM dstM : Mountpoint)
    (ffrom fto : String)
    (hep : endpoint = "rename" ∨ endpoint = "copy")
    (hs : sanitizeFields fields = some f2)
    (hf : jsString (lookupField f2 ("from")) = ffrom)
    (ht : jsString (lookupField f2 ("to")) = fto)
    (h1 : resolveMountpoint provider ("readfile") [("path", ffrom)] userGroups
      (ROOverride.bool false) = Except.ok (srcA, srcM))
    (h2 : resolveMountpoint provider ("writefile") [("path", fto)] userGroups
      (ROOverride.bool true) = Except.ok (dstA, dstM))
    (hdiff : srcM.adapter ≠ dstM.adapter) :
    (∀ ab w, beh ⟨srcA.tag, srcM.name, "readfile", [("path", ffrom)], []⟩ = Except.ok ab →
      beh ⟨dstA.tag, dstM.name, "writefile", [("path", fto)], [("upload", ab)]⟩ = Except.ok w →
      endpoint = "copy" →
      requestModel provider endpoint ro userGroups fields files beh =
        ([⟨srcA.tag, srcM.name, "readfile", [("path", ffrom)], []⟩,
          ⟨dstA.tag, dstM.name, "writefile", [("path", fto)], [("upload", ab)]⟩],
          Response.json (Value.bool true))) ∧
    (∀ ab w u, beh ⟨srcA.tag, srcM.name, "readfile", [("path", ffrom)], []⟩ = Except.ok ab →
      beh ⟨dstA.tag, dstM.name, "writefile", [("path", fto)], [("upload", ab)]⟩ = Except.ok w →
      endpoint = "rename" →
      beh ⟨srcA.tag, srcM.name, "unlink", [("path", ffrom)], []⟩ = Except.ok u →
      requestModel provider endpoint ro userGroups fields files beh =
        ([⟨srcA.tag, srcM.name, "readfile", [("path", ffrom)], []⟩,
          ⟨dstA.tag, dstM.name, "writefile", [("path", fto)], [("upload", ab)]⟩,
          ⟨srcA.tag, srcM.name, "unlink", [("path", ffrom)], []⟩],
          Response.json (Value.bool true))) ∧
    (∀ e, beh ⟨srcA.tag, srcM.name, "readfile", [("path", ffrom)], []⟩ = Except.error e →
      requestModel provider endpoint ro userGroups fields files beh =
        ([⟨srcA.tag, srcM.name, "readfile", [("path", ffrom)], []⟩],
          Response.error (respondStatus e.code) (errToString e))) ∧
    (∀ ab e, beh ⟨srcA.tag, srcM.name, "readfile", [("path", ffrom)], []⟩ = Except.ok ab →
      beh ⟨dstA.tag, dstM.name, "writefile", [("path", fto)], [("upload", ab)]⟩ = Except.error e →
      requestModel provider endpoint ro userGroups fields files beh =
        ([⟨srcA.tag, srcM.name, "readfile", [("path", ffrom)], []⟩,
          ⟨dstA.tag, dstM.name, "writefile", [("path", fto)], [("upload", ab)]⟩],
          Response.error (respondStatus e.code) (errToString e))) ∧
    (∀ ab w e, beh ⟨srcA.tag, srcM.name, "readfile", [("path", ffrom)], []⟩ = Except.ok ab →
      beh ⟨dstA.tag, dstM.name, "writefile", [("path", fto)], [("upload", ab)]⟩ = Except.ok w →
      endpoint = "rename" →
      beh ⟨srcA.tag, srcM.name, "unlink", [("path", ffrom)], []⟩ = Except.error e →
      requestModel provider endpoint ro userGroups fields files beh =
        ([⟨srcA.tag, srcM.name, "readfile", [("path", ffrom)], []⟩,
          ⟨dstA.tag, dstM.name, "writefile", [("path", fto)], [("upload", ab)]⟩,
          ⟨srcA.tag, srcM.name, "unlink", [("path", ffrom)], []⟩],
          Response.error (respondStatus e.code) (errToString e))) := by
  subst hf ht
  have hmain := requestModel_of_tryBlock_ok provider endpoint ro userGroups fields f2 files beh _
    hs (tryBlock_cross_eq provider endpoint ro userGroups f2 files beh srcA dstA srcM dstM
      hep h1 h2 hdiff)
  have hnotread : endpoint ≠ "readfile" := by
    rcases hep with h | h <;> rw [h] <;> decide
  refine ⟨?_, ?_, ?_, ?_, ?_⟩
  · intro ab w hb1 hb2 hcopy
    rw [hmain]
    unfold runComposite finish
    simp only [hb1, hb2, hcopy]
    rfl
  · intro ab w u hb1 hb2 hren hb3
    rw [hmain]
    unfold runComposite finish
    simp only [hb1, hb2, hren, hb3, if_pos]
    rfl
  · intro e hb1
    rw [hmain]
    unfold runComposite finish
    simp only [hb1, if_neg hnotread]
  · intro ab e hb1 hb2
    rw [hmain]
    unfold runComposite finish
    simp only [hb1, hb2, if_neg hnotread]
  · intro ab w e hb1 hb2 hren hb3
    rw [hmain]
    unfold runComposite finish
    simp only [hb1, hb2, hren, hb3, if_neg hnotread, if_pos]

/-- Witness for C2: a concrete cross-adapter rename performs exactly
readfile(a:/x.txt) on adapter `adA`, writefile(b:/y.txt) on adapter
`adB` carrying the read buffer as upload, then unlink(a:/x.txt) on
`adA`, and responds with JSON `true`. -/
theorem vfs_C2_cross_adapter_sequence_witness :
    requestModel
      ⟨[⟨"a", some ("A"), [], false⟩, ⟨"b", some ("B"), [], false⟩],
        [("A", ⟨"adA", ["readfile", "writefile", "rename", "copy", "unlink"]⟩),
          ("B", ⟨"adB", ["readfile", "writefile", "rename", "copy", "unlink"]⟩)]⟩
      ("rename") (ROOverride.bool true) [] [("from", "a:/x.txt"), ("to", "b:/y.txt")] []
      (fun c => if c.endpoint == "readfile" then Except.ok (Value.buffer ("DATA"))
                else Except.ok Value.null) =
    ([⟨"adA", "a", "readfile", [("path", "a:/x.txt")], []⟩,
      ⟨"adB", "b", "writefile", [("path", "b:/y.txt")], [("upload", Value.buffer ("DATA"))]⟩,
      ⟨"adA", "a", "unlink", [("path", "a:/x.txt")], []⟩],
      Response.json (Value.bool true)) := by
  exact (vfs_C2_cross_adapter_sequence
    ⟨[⟨"a", some ("A"), [], false⟩, ⟨"b", some ("B"), [], false⟩],
      [("A", ⟨"adA", ["readfile", "writefile", "rename", "copy", "unlink"]⟩),
        ("B", ⟨"adB", ["readfile", "writefile", "rename", "copy", "unlink"]⟩)]⟩
    ("rename") (ROOverride.bool true) [] [("from", "a:/x.txt"), ("to", "b:/y.txt")]
    [("from", "a:/x.txt"), ("to", "b:/y.txt")] []
    (fun c => if c.endpoint == "readfile" then Except.ok (Value.buffer ("DATA"))
              else Except.ok Value.null)
    ⟨"adA", ["readfile", "writefile", "rename", "copy", "unlink"]⟩
    ⟨"adB", ["readfile", "writefile", "rename", "copy", "unlink"]⟩
    ⟨"a", some ("A"), [], false⟩ ⟨"b", some ("B"), [], false⟩
    ("a:/x.txt") ("b:/y.txt")
    (Or.inl rfl) rfl rfl rfl rfl rfl (by decide)).2.1
    (Value.buffer ("DATA")) Value.null Value.null rfl rfl rfl rfl

/-- Counterexample to C3: the code decides "cross-adapter" by comparing
the mountpoints' declared `adapter` properties (`srcMount.adapter ===
dstMount.adapter`), not the adapters the mountpoints resolve to.  Here
mountpoint `a` explicitly declares the default adapter (`"system"`) and
mountpoint `b` leaves it implicit: both resolve to the very same
adapter, yet a rename between them is decomposed into the
readfile/writefile/unlink primitive sequence instead of being handed to
that adapter's native rename. -/
theorem vfs_C3_counterexample :
    (getAdapter ⟨[⟨"a", some ("system"), [], false⟩, ⟨"b", none, [], false⟩],
        [("system", ⟨"sysA", ["readfile", "writefile", "rename", "copy", "unlink"]⟩)]⟩
        ⟨"a", some ("system"), [], false⟩ =
      getAdapter ⟨[⟨"a", some ("system"), [], false⟩, ⟨"b", none, [], false⟩],
        [("system", ⟨"sysA", ["readfile", "writefile", "rename", "copy", "unlink"]⟩)]⟩
        ⟨"b", none, [], false⟩) ∧
    ((requestModel ⟨[⟨"a", some ("system"), [], false⟩, ⟨"b", none, [], false⟩],
        [("system", ⟨"sysA", ["readfile", "writefile", "rename", "copy", "unlink"]⟩)]⟩
        ("rename") (ROOverride.bool true) [] [("from", "a:/x"), ("to", "b:/y")] []
        (fun c => if c.endpoint == "readfile" then Except.ok (Value.buffer ("D"))
                  else Except.ok Value.null)).1 =
      [⟨"sysA", "a", "readfile", [("path", "a:/x")], []⟩,
        ⟨"sysA", "b", "writefile", [("path", "b:/y")], [("upload", Value.buffer ("D"))]⟩,
        ⟨"sysA", "a", "unlink", [("path", "a:/x")], []⟩]) := by
  refine ⟨rfl, rfl⟩

/-- Claim C3 as amended: for `rename`/`copy`, the read+write+unlink
decomposition is performed if and only if the two resolved mountpoints'
*declared adapter identifiers* differ (an absent identifier equal only
to another absent identifier); when the identifiers coincide the
original operation name is resolved and handed directly to the bound
adapter as a single native call, never decomposed. -/
theorem vfs_C3_amended_adapter_id_routing (provider : Provider) (endpoint : String)
    (ro : ROOverride) (userGroups : List String) (fields f2 : Fields) (files : Files)
    (beh : Call → Except JsErr Value) (srcA dstA : Adapter) (srcM dstM : Mountpoint)
    (hep : endpoint = "rename" ∨ endpoint = "copy")
    (hs : sanitizeFields fields = some f2)
    (h1 : resolveMountpoint provider ("readfile")
      [("path", jsString (lookupField f2 ("from")))] userGroups (ROOverride.bool false) =
      Except.ok (srcA, srcM))
    (h2 : resolveMountpoint provider ("writefile")
      [("path", jsString (lookupField f2 ("to")))] userGroups (ROOverride.bool true) =
      Except.ok (dstA, dstM)) :
    (srcM.adapter ≠ dstM.adapter →
      requestModel provider endpoint ro userGroups fields files beh =
        finish endpoint (runComposite beh srcA srcM dstA dstM endpoint
          (jsString (lookupField f2 ("from"))) (jsString (lookupField f2 ("to"))))) ∧
    (srcM.adapter = dstM.adapter → ∀ a m,
      resolveMountpoint provider endpoint f2 userGroups ro = Except.ok (a, m) →
      requestModel provider endpoint ro userGroups fields files beh =
        finish endpoint (runSingle beh a m endpoint f2 files)) := by
  constructor
  · intro hdiff
    exact requestModel_of_tryBlock_ok provider endpoint ro userGroups fields f2 files beh _
      hs (tryBlock_cross_eq provider endpoint ro userGroups f2 files beh srcA dstA srcM dstM
        hep h1 h2 hdiff)
  · intro hsame a m hres
    exact requestModel_of_tryBlock_ok provider endpoint ro userGroups fields f2 files beh _
      hs (tryBlock_same_eq provider endpoint ro userGroups f2 files beh srcA dstA a srcM dstM m
        hep h1 h2 hsame hres)

/-- Witness for the amended C3: a same-adapter rename (both mountpoints
leaving the adapter implicit) is delegated as one native `rename` call
carrying the original fields — not decomposed. -/
theorem vfs_C3_amended_adapter_id_routing_witness :
    requestModel ⟨[⟨"a", none, [], false⟩, ⟨"b", none, [], false⟩],
        [("system", ⟨"sysA", ["readfile", "writefile", "rename", "copy", "unlink"]⟩)]⟩
      ("rename") (ROOverride.bool true) [] [("from", "a:/x"), ("to", "b:/y")] []
      (fun _ => Except.ok Value.null) =
    ([⟨"sysA", "a", "rename", [("from", "a:/x"), ("to", "b:/y")], []⟩],
      Response.json Value.null) := by
  exact (vfs_C3_amended_adapter_id_routing
    ⟨[⟨"a", none, [], false⟩, ⟨"b", none, [], false⟩],
      [("system", ⟨"sysA", ["readfile", "writefile", "rename", "copy", "unlink"]⟩)]⟩
    ("rename") (ROOverride.bool true) [] [("from", "a:/x"), ("to", "b:/y")]
    [("from", "a:/x"), ("to", "b:/y")] [] (fun _ => Except.ok Value.null)
    ⟨"sysA", ["readfile", "writefile", "rename", "copy", "unlink"]⟩
    ⟨"sysA", ["readfile", "writefile", "rename", "copy", "unlink"]⟩
    ⟨"a", none, [], false⟩ ⟨"b", none, [], false⟩
    (Or.inl rfl) rfl rfl rfl).2 rfl
    ⟨"sysA", ["readfile", "writefile", "rename", "copy", "unlink"]⟩
    ⟨"a", none, [], false⟩ rfl

/-- Claim C6 (confirmed): in the `rename`/`copy` branch the source is
resolved with read-only override `false` — which never blocks, even on
a read-only source mountpoint — and the destination is resolved against
`writefile` with override `true`, so a destination mountpoint whose
`readOnly` attribute is set fails resolution with the read-only
`VFSError` carrying status 403; the dispatcher then surfaces that
failure (through its code-discarding wrapper) without performing any
adapter call. -/
theorem vfs_C6_override_direction :
    (∀ (mp : Mountpoint) (fields : Fields),
      checkReadOnly (ROOverride.bool false) mp fields = false) ∧
    (∀ (provider : Provider) (userGroups : List String) (fto : String) (dmp : Mountpoint),
      getPrefixOf fto ≠ "" →
      provider.mountpoints.find? (fun m => m.name == getPrefixOf fto) = some dmp →
      dmp.readOnly = true →
      resolveMountpoint provider ("writefile") [("path", fto)] userGroups
        (ROOverride.bool true) =
        Except.error ⟨"Mountpoint \x27" ++ getPrefixOf fto ++ " is read-only\x27",
          ErrCode.num 403⟩) ∧
    (∀ (provider : Provider) (endpoint : String) (ro : ROOverride) (userGroups : List String)
      (fields f2 : Fields) (files : Files) (beh : Call → Except JsErr Value)
      (srcA : Adapter) (srcM : Mountpoint) (e : JsErr),
      (endpoint = "rename" ∨ endpoint = "copy") →
      sanitizeFields fields = some f2 →
      resolveMountpoint provider ("readfile") [("path", jsString (lookupField f2 ("from")))]
        userGroups (ROOverride.bool false) = Except.ok (srcA, srcM) →
      resolveMountpoint provider ("writefile") [("path", jsString (lookupField f2 ("to")))]
        userGroups (ROOverride.bool true) = Except.error e →
      requestModel provider endpoint ro userGroups fields files beh =
        ([], Response.error 400 (errToString (wrapError e)))) := by
  refine ⟨?_, ?_, ?_⟩
  · intro mp fields
    unfold checkReadOnly
    by_cases h : mp.readOnly <;> simp [h]
  · intro provider userGroups fto dmp hpfx hfind hro
    rw [resolveMountpoint_singleton]
    have hblock : checkReadOnly (ROOverride.bool true) dmp [("path", fto)] = true := by
      unfold checkReadOnly
      rw [hro]
      rfl
    simp only [resolveStep, if_pos hpfx, hfind, hblock, if_true]
  · intro provider endpoint ro userGroups fields f2 files beh srcA srcM e hep hs h1 h2
    exact requestModel_of_tryBlock_throw provider endpoint ro userGroups fields f2 files beh e
      hs (tryBlock_cross_throw2 provider endpoint ro userGroups f2 files beh srcA srcM e
        hep h1 h2)

/-- Witness for C6: a rename whose destination mountpoint `b` is
read-only fails with the read-only error — the 403 `VFSError` is raised
and surfaced (status 400 after the dispatcher's wrapper) with no
adapter call — even though the source mountpoint resolves fine. -/
theorem vfs_C6_override_direction_witness :
    checkReadOnly (ROOverride.bool false) ⟨"a", none, [], true⟩ [("path", "a:/x")] = false ∧
    resolveMountpoint ⟨[⟨"a", none, [], false⟩, ⟨"b", none, [], true⟩],
        [("system", ⟨"sysA", ["readfile", "writefile", "rename", "copy", "unlink"]⟩)]⟩
      ("writefile") [("path", "b:/y")] [] (ROOverride.bool true) =
      Except.error ⟨"Mountpoint \x27b is read-only\x27", ErrCode.num 403⟩ ∧
    requestModel ⟨[⟨"a", none, [], false⟩, ⟨"b", none, [], true⟩],
        [("system", ⟨"sysA", ["readfile", "writefile", "rename", "copy", "unlink"]⟩)]⟩
      ("rename") (ROOverride.bool true) [] [("from", "a:/x"), ("to", "b:/y")] []
      (fun _ => Except.ok Value.null) =
      ([], Response.error 400 ("Error: Error: Mountpoint \x27b is read-only\x27")) := by
  refine ⟨vfs_C6_override_direction.1 _ _, ?_, ?_⟩
  · exact vfs_C6_override_direction.2.1 _ [] ("b:/y") ⟨"b", none, [], true⟩
      (by decide) rfl rfl
  · exact vfs_C6_override_direction.2.2 _ ("rename") (ROOverride.bool true) []
      [("from", "a:/x"), ("to", "b:/y")] [("from", "a:/x"), ("to", "b:/y")] []
      (fun _ => Except.ok Value.null)
      ⟨"sysA", ["readfile", "writefile", "rename", "copy", "unlink"]⟩
      ⟨"a", none, [], false⟩ ⟨"Mountpoint \x27b is read-only\x27", ErrCode.num 403⟩
      (Or.inl rfl) rfl rfl rfl

/-- Claim C4 (confirmed): with no declared groups authorization always
succeeds; otherwise it succeeds iff every bare group name declared by
the mountpoint is held by the caller AND, when some mapping entry names
the operation, every group that entry lists for the operation is held
as well — a conjunction, vacuously satisfied on the mapping side when
no entry names the operation.  (`methodEntry` consults the first
mapping entry containing the operation name, exactly as the code's
`groups.find(...)` does.) -/
theorem vfs_C4_group_conjunction (u : List String) (m : String) (mp : Mountpoint) :
    (mp.groups = [] → validateGroups u m mp = true) ∧
    (validateGroups u m mp = true ↔
      ((∀ g ∈ bareGroups mp, g ∈ u) ∧
        (∀ gs, methodEntry m mp = some gs → ∀ g ∈ gs, g ∈ u))) := by
  constructor
  · intro h
    unfold validateGroups
    rw [h]
    rfl
  · unfold validateGroups bareGroups methodEntry
    by_cases hlen : mp.groups.length ≠ 0
    · simp only [hlen, if_pos hlen]
      rw [Bool.and_eq_true]
      apply and_congr
      · by_cases hng : (mp.groups.filterMap (fun g =>
          match g with
          | GroupEntry.named s => some s
          | GroupEntry.mapping _ => none)).length ≠ 0
        · simp only [hng, if_pos hng, List.all_eq_true, List.elem_iff]
        · have hnil := List.length_eq_zero.mp (not_not.mp hng)
          rw [if_neg hng, hnil]
          simp
      · cases hfind : mp.groups.find? (fun g =>
          match g with
          | GroupEntry.named _ => false
          | GroupEntry.mapping mm => mm.any (fun kv => kv.1 == m)) with
        | none => simp [hfind]
        | some ge =>
          cases ge with
          | named s => simp [hfind]
          | mapping mm =>
            cases hmm : mm.find? (fun kv => kv.1 == m) with
            | none => simp [hfind, hmm]
            | some kv =>
              simp only [hfind, hmm, Option.map_some, List.all_eq_true]
              constructor
              · intro h gs hgs g hg
                cases hgs
                exact List.elem_iff.mp (h g hg)
              · intro h g hg
                exact List.elem_iff.mpr (h kv.2 rfl g hg)
    · have hnil := List.length_eq_zero.mp (not_not.mp hlen)
      rw [hnil]
      simp

/-- Witness for C4, instantiating the spec's own scenario: a mountpoint
declaring only `{writefile: ['admins']}` denies a caller without
`admins` for `writefile` but allows it for `readfile`, and a mountpoint
with no declared groups allows everything. -/
theorem vfs_C4_group_conjunction_witness :
    validateGroups [] ("writefile")
      ⟨"g", none, [GroupEntry.mapping [("writefile", ["admins"])]], false⟩ = false ∧
    validateGroups [] ("readfile")
      ⟨"g", none, [GroupEntry.mapping [("writefile", ["admins"])]], false⟩ = true ∧
    validateGroups [] ("writefile") ⟨"e", none, [], false⟩ = true := by
  refine ⟨by decide, ?_, ?_⟩
  · exact (vfs_C4_group_conjunction [] ("readfile")
      ⟨"g", none, [GroupEntry.mapping [("writefile", ["admins"])]], false⟩).2.mpr
      ⟨by decide, fun gs h => nomatch h⟩
  · exact (vfs_C4_group_conjunction [] ("writefile") ⟨"e", none, [], false⟩).1 rfl

/-! Facts about the character-level path utilities, used to settle the
sanitization claims. -/

lemma word_ne_slash (c : Char) (h : isWordChar c = true) : c ≠ '/' := by
  intro he
  subst he
  revert h
  decide

lemma collapse_cons2 (a b : Char) (rest : List Char) :
    collapse (a :: b :: rest) =
      if (a == '/' && b == '/') = true then collapse (b :: rest)
      else a :: collapse (b :: rest) := rfl

lemma collapse_cons_ex (a : Char) (l : List Char) : ∃ t, collapse (a :: l) = a :: t := by
  induction l generalizing a with
  | nil => exact ⟨[], rfl⟩
  | cons b rest ih =>
    by_cases h : (a == '/' && b == '/') = true
    · obtain ⟨t, ht⟩ := ih b
      have hab : a = b := by
        rw [Bool.and_eq_true] at h
        rw [eq_of_beq h.1, eq_of_beq h.2]
      refine ⟨t, ?_⟩
      rw [collapse_cons2, if_pos h, ht, hab]
    · exact ⟨collapse (b :: rest), by rw [collapse_cons2, if_neg h]⟩

lemma collapse_head (l : List Char) : (collapse l).head? = l.head? := by
  cases l with
  | nil => rfl
  | cons a t =>
    obtain ⟨r, hr⟩ := collapse_cons_ex a t
    rw [hr]
    rfl

lemma collapse_cons_of_ne (a : Char) (l : List Char) (h : a ≠ '/') :
    collapse (a :: l) = a :: collapse l := by
  cases l with
  | nil => rfl
  | cons b rest =>
    rw [collapse_cons2, if_neg]
    intro hc
    rw [Bool.and_eq_true] at hc
    exact h (eq_of_beq hc.1)

lemma noDS_cons2 (a b : Char) (rest : List Char) :
    noDS (a :: b :: rest) = (!(a == '/' && b == '/') && noDS (b :: rest)) := rfl

lemma noDS_cons_of (a : Char) (l : List Char)
    (h1 : (a == '/') = false ∨ l.head? ≠ some '/') (h2 : noDS l = true) :
    noDS (a :: l) = true := by
  cases l with
  | nil => rfl
  | cons b t =>
    rw [noDS_cons2, Bool.and_eq_true]
    refine ⟨?_, h2⟩
    rw [Bool.not_eq_true', Bool.and_eq_false_iff]
    rcases h1 with h | h
    · exact Or.inl h
    · refine Or.inr ?_
      rw [beq_eq_false_iff_ne]
      intro hb
      exact h (by rw [hb]; rfl)

lemma collapse_of_noDS (l : List Char) (h : noDS l = true) : collapse l = l := by
  induction l with
  | nil => rfl
  | cons a tail ih =>
    cases tail with
    | nil => rfl
    | cons b rest =>
      rw [noDS_cons2, Bool.and_eq_true] at h
      rw [collapse_cons2, if_neg (by rw [Bool.not_eq_true'] at h; simp [h.1]), ih h.2]

lemma noDS_collapse (l : List Char) : noDS (collapse l) = true := by
  induction l with
  | nil => rfl
  | cons a tail ih =>
    cases tail with
    | nil => rfl
    | cons b rest =>
      rw [collapse_cons2]
      by_cases h : (a == '/' && b == '/') = true
      · rw [if_pos h]
        exact ih
      · rw [if_neg h]
        refine noDS_cons_of a (collapse (b :: rest)) ?_ ih
        have h2 : (a == '/' && b == '/') = false := Bool.eq_false_iff.mpr h
        rw [Bool.and_eq_false_iff] at h2
        rcases h2 with h | h
        · exact Or.inl h
        · refine Or.inr ?_
          rw [collapse_head]
          intro hc
          have hb : b = '/' := by
            have := congrArg (fun o => o.getD 'x') hc
            simpa using this
          rw [hb] at h
          simp at h

lemma collapse_idem (l : List Char) : collapse (collapse l) = collapse l :=
  collapse_of_noDS _ (noDS_collapse l)

lemma mem_collapse (l : List Char) (c : Char) (h : c ∈ collapse l) : c ∈ l := by
  induction l with
  | nil => exact absurd h (by simp [collapse])
  | cons a tail ih =>
    cases tail with
    | nil => exact h
    | cons b rest =>
      rw [collapse_cons2] at h
      by_cases hc : (a == '/' && b == '/') = true
      · rw [if_pos hc] at h
        exact List.mem_cons_of_mem a (ih h)
      · rw [if_neg hc] at h
        rcases List.mem_cons.mp h with h | h
        · exact h ▸ List.mem_cons_self a _
        · exact List.mem_cons_of_mem a (ih h)

lemma noDS_append_mid (q t : List Char) (mid : Char)
    (hq : ∀ c ∈ q, c ≠ '/') (hmid : mid ≠ '/') (ht : noDS t = true) :
    noDS (q ++ mid :: t) = true := by
  induction q with
  | nil =>
    refine noDS_cons_of mid t (Or.inl ?_) ht
    rw [beq_eq_false_iff_ne]
    exact hmid
  | cons d q' ih =>
    have hd : d ≠ '/' := hq d (List.mem_cons_self d q')
    refine noDS_cons_of d (q' ++ mid :: t) (Or.inl ?_) (ih (fun c hc => hq c (List.mem_cons_of_mem d hc)))
    rw [beq_eq_false_iff_ne]
    exact hd

lemma jsSplit_ne_nil (sep : Char) (l : List Char) : jsSplit sep l ≠ [] := by
  cases l with
  | nil => simp [jsSplit]
  | cons c cs =>
    unfold jsSplit
    by_cases h : (c == sep) = true
    · simp [h]
    · simp only [h]
      cases hs : jsSplit sep cs with
      | nil => simp
      | cons s ss => simp

lemma jsSplit_headD (sep : Char) (l : List Char) :
    (jsSplit sep l).headD [] = l.takeWhile (fun c => c != sep) := by
  induction l with
  | nil => rfl
  | cons c cs ih =>
    unfold jsSplit
    by_cases h : (c == sep) = true
    · have h2 : (c != sep) = false := by simp [bne, h]
      simp [h, List.takeWhile_cons, h2]
    · have h2 : (c != sep) = true := by simp [bne, h]
      cases hs : jsSplit sep cs with
      | nil => exact absurd hs (jsSplit_ne_nil sep cs)
      | cons s ss =>
        rw [hs] at ih
        simp only [h, Bool.false_eq_true, if_false, hs, List.headD_cons, List.takeWhile_cons, h2,
          if_true]
        rw [← ih]
        rfl

lemma jsJoin_jsSplit (sep : Char) (l : List Char) : jsJoin sep (jsSplit sep l) = l := by
  induction l with
  | nil => rfl
  | cons c cs ih =>
    unfold jsSplit
    by_cases h : (c == sep) = true
    · cases hs : jsSplit sep cs with
      | nil => exact absurd hs (jsSplit_ne_nil sep cs)
      | cons s ss =>
        rw [hs] at ih
        simp only [h, if_true]
        show sep :: jsJoin sep (s :: ss) = c :: cs
        rw [ih, eq_of_beq h]
    · cases hs : jsSplit sep cs with
      | nil => exact absurd hs (jsSplit_ne_nil sep cs)
      | cons s ss =>
        rw [hs] at ih
        simp only [h, Bool.false_eq_true, if_false, hs]
        cases ss with
        | nil =>
          show c :: s = c :: cs
          rw [← ih]
          rfl
        | cons s2 ss2 =>
          show (c :: s) ++ sep :: jsJoin sep (s2 :: ss2) = c :: cs
          rw [← ih]
          rfl

lemma mem_chunk_of_jsSplit (sep : Char) (l : List Char) (z : List Char) (c : Char)
    (hz : z ∈ jsSplit sep l) (hc : c ∈ z) : c ∈ l ∧ c ≠ sep := by
  induction l generalizing z with
  | nil =>
    simp only [jsSplit, List.mem_singleton] at hz
    subst hz
    exact absurd hc (by simp)
  | cons a cs ih =>
    unfold jsSplit at hz
    by_cases h : (a == sep) = true
    · simp only [h, if_true, List.mem_cons] at hz
      rcases hz with hz | hz
      · subst hz
        exact absurd hc (by simp)
      · obtain ⟨h1, h2⟩ := ih z hz hc
        exact ⟨List.mem_cons_of_mem a h1, h2⟩
    · simp only [h, Bool.false_eq_true, if_false] at hz
      cases hs : jsSplit sep cs with
      | nil => exact absurd hs (jsSplit_ne_nil sep cs)
      | cons s ss =>
        rw [hs] at hz
        rcases List.mem_cons.mp hz with hz | hz
        · subst hz
          rcases List.mem_cons.mp hc with hc | hc
          · subst hc
            exact ⟨List.mem_cons_self c cs, by rwa [← beq_eq_false_iff_ne, ← Bool.not_eq_true]⟩
          · obtain ⟨h1, h2⟩ := ih s (hs ▸ List.mem_cons_self s ss) hc
            exact ⟨List.mem_cons_of_mem a h1, h2⟩
        · obtain ⟨h1, h2⟩ := ih z (hs ▸ List.mem_cons_of_mem s hz) hc
          exact ⟨List.mem_cons_of_mem a h1, h2⟩

lemma mem_jsJoin (sep : Char) (ys : List (List Char)) (c : Char)
    (h : c ∈ jsJoin sep ys) : c = sep ∨ ∃ y ∈ ys, c ∈ y := by
  induction ys with
  | nil => exact absurd h (by simp [jsJoin])
  | cons s ss ih =>
    cases ss with
    | nil =>
      exact Or.inr ⟨s, List.mem_cons_self s [], h⟩
    | cons s2 ss2 =>
      have hj : jsJoin sep (s :: s2 :: ss2) = s ++ sep :: jsJoin sep (s2 :: ss2) := rfl
      rw [hj] at h
      rcases List.mem_append.mp h with h | h
      · exact Or.inr ⟨s, List.mem_cons_self s _, h⟩
      · rcases List.mem_cons.mp h with h | h
        · exact Or.inl h
        · rcases ih h with h | ⟨y, hy, hcy⟩
          · exact Or.inl h
          · exact Or.inr ⟨y, List.mem_cons_of_mem s hy, hcy⟩

lemma takeWhile_all_eq_self (p : Char → Bool) (l : List Char)
    (h : ∀ c ∈ l, p c = true) : l.takeWhile p = l := by
  induction l with
  | nil => rfl
  | cons c cs ih =>
    rw [List.takeWhile_cons, if_pos (h c (List.mem_cons_self c cs)),
      ih (fun x hx => h x (List.mem_cons_of_mem c hx))]

lemma takeWhile_append_all (p : Char → Bool) (xs ys : List Char)
    (h : ∀ c ∈ xs, p c = true) : (xs ++ ys).takeWhile p = xs ++ ys.takeWhile p := by
  induction xs with
  | nil => rfl
  | cons x xs ih =>
    rw [List.cons_append, List.takeWhile_cons, if_pos (h x (List.mem_cons_self x xs)),
      ih (fun c hc => h c (List.mem_cons_of_mem x hc)), List.cons_append]

lemma dropWhile_append_all (p : Char → Bool) (xs ys : List Char)
    (h : ∀ c ∈ xs, p c = true) : (xs ++ ys).dropWhile p = ys.dropWhile p := by
  induction xs with
  | nil => rfl
  | cons x xs ih =>
    rw [List.cons_append, List.dropWhile_cons, if_pos (h x (List.mem_cons_self x xs)),
      ih (fun c hc => h c (List.mem_cons_of_mem x hc))]

lemma matchPrefixColon_eq_some_iff (l nm st : List Char) :
    matchPrefixColon l = some (nm, st) ↔
      (l.takeWhile isWordChar ≠ [] ∧ (l.dropWhile isWordChar).head? = some ':' ∧
        nm = l.takeWhile isWordChar ∧
        st = (l.dropWhile isWordChar).tail.takeWhile (fun c => c ≠ '\n')) := by
  unfold matchPrefixColon
  by_cases h1 : l.takeWhile isWordChar = []
  · simp [h1]
  · rw [if_neg h1]
    by_cases h2 : (l.dropWhile isWordChar).head? = some ':'
    · rw [if_pos h2]
      simp only [Option.some_inj, Prod.mk.injEq]
      constructor
      · rintro ⟨ha, hb⟩
        exact ⟨h1, h2, ha.symm, hb.symm⟩
      · rintro ⟨_, _, ha, hb⟩
        exact ⟨ha.symm, hb.symm⟩
    · rw [if_neg h2]
      simp [h2]

lemma matchPrefixColon_eq_none_iff (l : List Char) :
    matchPrefixColon l = none ↔
      (l.takeWhile isWordChar = [] ∨ (l.dropWhile isWordChar).head? ≠ some ':') := by
  unfold matchPrefixColon
  by_cases h1 : l.takeWhile isWordChar = []
  · simp [h1]
  · rw [if_neg h1]
    by_cases h2 : (l.dropWhile isWordChar).head? = some ':'
    · rw [if_pos h2]
      simp [h1, h2]
    · rw [if_neg h2]
      simp [h1, h2]

lemma takeWhile_word_collapse (l : List Char) :
    (collapse l).takeWhile isWordChar = l.takeWhile isWordChar := by
  induction l with
  | nil => rfl
  | cons a tail ih =>
    cases tail with
    | nil => rfl
    | cons b rest =>
      by_cases hw : isWordChar a = true
      · rw [collapse_cons_of_ne a (b :: rest) (word_ne_slash a hw), List.takeWhile_cons,
          if_pos hw, List.takeWhile_cons, if_pos hw, ih]
      · rw [collapse_cons2]
        by_cases h : (a == '/' && b == '/') = true
        · rw [if_pos h]
          have hb : b = '/' := by
            rw [Bool.and_eq_true] at h
            exact eq_of_beq h.2
          obtain ⟨t, ht⟩ := collapse_cons_ex b rest
          rw [ht, List.takeWhile_cons, List.takeWhile_cons]
          have hbw : isWordChar b = false := by
            rw [hb]
            decide
          rw [if_neg (by simp [hbw]), if_neg (by simp [hw])]
        · rw [if_neg h, List.takeWhile_cons, if_neg (by simp [hw]), List.takeWhile_cons,
            if_neg (by simp [hw])]

lemma dropWhile_word_collapse (l : List Char) :
    (collapse l).dropWhile isWordChar = collapse (l.dropWhile isWordChar) := by
  induction l with
  | nil => rfl
  | cons a tail ih =>
    by_cases hw : isWordChar a = true
    · rw [collapse_cons_of_ne a tail (word_ne_slash a hw), List.dropWhile_cons, if_pos hw,
        List.dropWhile_cons, if_pos hw, ih]
    · obtain ⟨t, ht⟩ := collapse_cons_ex a tail
      rw [ht, List.dropWhile_cons, if_neg (by simp [hw]), List.dropWhile_cons,
        if_neg (by simp [hw]), ← ht]

lemma wordColonShape_iff (s : String) :
    wordColonShape s ↔
      (s.data.takeWhile isWordChar ≠ [] ∧ (s.data.dropWhile isWordChar).head? = some ':') := by
  constructor
  · rintro ⟨p, rest, heq, hne, hall⟩
    rw [heq, takeWhile_append_all isWordChar p (':' :: rest) hall,
      dropWhile_append_all isWordChar p (':' :: rest) hall]
    constructor
    · rw [List.takeWhile_cons, if_neg (by decide)]
      simpa using hne
    · rw [List.dropWhile_cons, if_neg (by decide)]
      rfl
  · rintro ⟨h1, h2⟩
    cases hd : s.data.dropWhile isWordChar with
    | nil =>
      rw [hd] at h2
      exact absurd h2 (by simp)
    | cons c t =>
      rw [hd] at h2
      have hc : c = ':' := by simpa using h2
      subst hc
      refine ⟨s.data.takeWhile isWordChar, t, ?_, h1,
        fun c hc => List.mem_takeWhile_imp hc⟩
      conv_lhs => rw [← List.takeWhile_append_dropWhile (p := isWordChar) (l := s.data)]
      rw [hd]

lemma sanitize_eq_none_of_not_shape (s : String) (h : ¬ wordColonShape s) :
    sanitize s = none := by
  have hm : matchPrefixColon (collapse s.data) = none := by
    rw [matchPrefixColon_eq_none_iff, takeWhile_word_collapse, dropWhile_word_collapse,
      collapse_head]
    by_contra hcon
    push_neg at hcon
    exact h ((wordColonShape_iff s).mpr ⟨hcon.1, hcon.2⟩)
  simp [sanitize, sanitizeChars, hm]

lemma lookupField_setField_ne (fields : Fields) (k k2 v : String) (h : k ≠ k2) :
    lookupField (setField fields k2 v) k = lookupField fields k := by
  have hk2 : ((k2 : String) == k) = false := beq_eq_false_iff_ne.mpr (Ne.symm h)
  induction fields with
  | nil => rfl
  | cons kv rest ih =>
    obtain ⟨a, b⟩ := kv
    by_cases h1 : ((a : String) == k2) = true
    · have ha : ((a : String) == k) = false := by rw [eq_of_beq h1]; exact hk2
      simp only [setField, List.map_cons, if_pos h1, lookupField, List.find?, hk2, ha]
      exact ih
    · have h1f : ((a : String) == k2) = false := Bool.eq_false_iff.mpr h1
      simp only [setField, List.map_cons, h1f, Bool.false_eq_true, if_false, lookupField,
        List.find?]
      by_cases ha : ((a : String) == k) = true
      · simp only [ha]
      · have haf : ((a : String) == k) = false := Bool.eq_false_iff.mpr ha
        simp only [haf]
        exact ih

lemma sanitizeField_eq_none (fields : Fields) (k v : String)
    (hv : lookupField fields k = some v) (hbad : sanitize v = none) :
    sanitizeField fields k = none := by
  simp [sanitizeField, hv, hbad]

lemma lookupField_after_sanitizeField (fields f2 : Fields) (k k2 : String) (hne : k ≠ k2)
    (hres : sanitizeField fields k2 = some f2) : lookupField f2 k = lookupField fields k := by
  unfold sanitizeField at hres
  cases hl : lookupField fields k2 with
  | none =>
    rw [hl] at hres
    injection hres with h2
    rw [← h2]
  | some v =>
    simp only [hl] at hres
    cases hsan : sanitize v with
    | none => rw [hsan] at hres; cases hres
    | some v2 =>
      rw [hsan, Option.map_some' v2] at hres
      injection hres with h2
      rw [← h2]
      exact lookupField_setField_ne fields k k2 v2 hne

lemma sanitizeFields_eq_none (fields : Fields) (k v : String)
    (hk : k = "path" ∨ k = "from" ∨ k = "to" ∨ k = "root")
    (hv : lookupField fields k = some v) (hbad : sanitize v = none) :
    sanitizeFields fields = none := by
  unfold sanitizeFields
  rcases hk with rfl | rfl | rfl | rfl
  · rw [sanitizeField_eq_none fields _ v hv hbad]
    rfl
  · cases h1 : sanitizeField fields ("path") with
    | none => rfl
    | some f1 =>
      have hv1 : lookupField f1 ("from") = some v := by
        rw [lookupField_after_sanitizeField fields f1 ("from") ("path") (by decide) h1]
        exact hv
      simp only [Option.some_bind]
      rw [sanitizeField_eq_none f1 _ v hv1 hbad]
      rfl
  · cases h1 : sanitizeField fields ("path") with
    | none => rfl
    | some f1 =>
      simp only [Option.some_bind]
      have hv1 : lookupField f1 ("to") = some v := by
        rw [lookupField_after_sanitizeField fields f1 ("to") ("path") (by decide) h1]
        exact hv
      cases h2 : sanitizeField f1 ("from") with
      | none => rfl
      | some f2 =>
        simp only [Option.some_bind]
        have hv2 : lookupField f2 ("to") = some v := by
          rw [lookupField_after_sanitizeField f1 f2 ("to") ("from") (by decide) h2]
          exact hv1
        rw [sanitizeField_eq_none f2 _ v hv2 hbad]
        rfl
  · cases h1 : sanitizeField fields ("path") with
    | none => rfl
    | some f1 =>
      simp only [Option.some_bind]
      have hv1 : lookupField f1 ("root") = some v := by
        rw [lookupField_after_sanitizeField fields f1 ("root") ("path") (by decide) h1]
        exact hv
      cases h2 : sanitizeField f1 ("from") with
      | none => rfl
      | some f2 =>
        simp only [Option.some_bind]
        have hv2 : lookupField f2 ("root") = some v := by
          rw [lookupField_after_sanitizeField f1 f2 ("root") ("from") (by decide) h2]
          exact hv1
        cases h3 : sanitizeField f2 ("to") with
        | none => rfl
        | some f3 =>
          simp only [Option.some_bind]
          have hv3 : lookupField f3 ("root") = some v := by
            rw [lookupField_after_sanitizeField f2 f3 ("root") ("to") (by decide) h3]
            exact hv2
          exact sanitizeField_eq_none f3 _ v hv3 hbad

/-- Claim C9 (confirmed): on every path on which `sanitize` is defined
(does not throw), sanitizing is idempotent: a second application
returns the first result unchanged. -/
theorem vfs_C9_sanitize_idempotent (p q : String) (h : sanitize p = some q) :
    sanitize q = some q := by
  unfold sanitize at h ⊢
  cases hc : sanitizeChars p.data with
  | none => rw [hc] at h; cases h
  | some qd =>
    rw [hc, Option.map_some' qd] at h
    injection h with hq
    subst hq
    show (sanitizeChars qd).map String.mk = some (String.mk qd)
    unfold sanitizeChars at hc
    cases hm : matchPrefixColon (collapse p.data) with
    | none => rw [hm] at hc; cases hc
    | some nmst =>
      obtain ⟨nm, str⟩ := nmst
      simp only [hm] at hc
      injection hc with hc2
      obtain ⟨hne', hhead, hnm, hst⟩ := (matchPrefixColon_eq_some_iff _ nm str).mp hm
      have hnmword : ∀ c ∈ nm, isWordChar c = true := by
        rw [hnm]
        exact fun c hc => List.mem_takeWhile_imp hc
      have hnmne : nm ≠ [] := by rw [hnm]; exact hne'
      have hnoslash : ∀ c ∈ nm, c ≠ '/' := fun c hc => word_ne_slash c (hnmword c hc)
      set sane := collapse (jsJoin '/' ((jsSplit '/' str).map sfChars)) with hsane
      have hsmem : ∀ c ∈ sane, c = '/' ∨ isIllegalFilenameChar c = false := by
        intro c hcs
        have h1 := mem_collapse _ c hcs
        rcases mem_jsJoin '/' _ c h1 with h2 | ⟨y, hy, hcy⟩
        · exact Or.inl h2
        · obtain ⟨z, hz, hyz⟩ := List.mem_map.mp hy
          rw [← hyz] at hcy
          exact Or.inr (by simpa using (List.mem_filter.mp hcy).2)
      have hnl : ∀ c ∈ sane, c ≠ '\n' := by
        intro c hcs heq
        rcases hsmem c hcs with h2 | h2
        · rw [heq] at h2
          exact absurd h2 (by decide)
        · rw [heq] at h2
          exact absurd h2 (by decide)
      have hnds : noDS sane = true := by rw [hsane]; exact noDS_collapse _
      have hcol : collapse (nm ++ ':' :: sane) = nm ++ ':' :: sane :=
        collapse_of_noDS _ (noDS_append_mid nm sane ':' hnoslash (by decide) hnds)
      have htw : (nm ++ ':' :: sane).takeWhile isWordChar = nm := by
        rw [takeWhile_append_all isWordChar nm _ hnmword, List.takeWhile_cons,
          if_neg (by decide), List.append_nil]
      have hdw : (nm ++ ':' :: sane).dropWhile isWordChar = ':' :: sane := by
        rw [dropWhile_append_all isWordChar nm _ hnmword, List.dropWhile_cons,
          if_neg (by decide)]
      have hmatch : matchPrefixColon (nm ++ ':' :: sane) = some (nm, sane) := by
        rw [matchPrefixColon_eq_some_iff]
        refine ⟨by rw [htw]; exact hnmne, by rw [hdw]; rfl, htw.symm, ?_⟩
        rw [hdw]
        show sane = sane.takeWhile (fun c => c ≠ '\n')
        exact (takeWhile_all_eq_self _ sane (fun c hc => decide_eq_true (hnl c hc))).symm
      have hseg : (jsSplit '/' sane).map sfChars = jsSplit '/' sane := by
        have hz : ∀ z ∈ jsSplit '/' sane, sfChars z = z := by
          intro z hz
          apply List.filter_eq_self.mpr
          intro c hcz
          obtain ⟨hcl, hcne⟩ := mem_chunk_of_jsSplit '/' sane z c hz hcz
          rcases hsmem c hcl with h2 | h2
          · exact absurd h2 hcne
          · show (!isIllegalFilenameChar c) = true
            rw [h2]
            rfl
        conv_rhs => rw [← List.map_id (jsSplit '/' sane)]
        exact List.map_congr_left hz
      have hkey : sanitizeChars (nm ++ ':' :: sane) = some (nm ++ ':' :: sane) := by
        unfold sanitizeChars
        simp only [hcol, hmatch]
        rw [hseg, jsJoin_jsSplit]
        rw [hsane, collapse_idem]
      rw [← hc2, hkey, Option.map_some']

/-- Claim C7 as amended: the prefix parser returns the substring
before the first colon, and for a path containing no colon it returns
the *entire string* (not an empty/undefined prefix); resolution then
fails with `MountpointNotFound` exactly when that prefix is empty or
matches no registered mountpoint name — a mountpoint named like the
colon-free path does resolve (see the counterexample). -/
theorem vfs_C7_amended_prefixes :
    (∀ s : String, getPrefixOf s = String.mk (s.data.takeWhile (fun c => c != ':'))) ∧
    (∀ s : String, (∀ c ∈ s.data, c ≠ ':') → getPrefixOf s = s) ∧
    (∀ (provider : Provider) (endpoint : String) (userGroups : List String) (ro : ROOverride)
      (v : String), getPrefixOf v = "" →
      resolveMountpoint provider endpoint [("path", v)] userGroups ro =
        Except.error ⟨"Mountpoint not found for \x27\x27", ErrCode.num 403⟩) ∧
    (∀ (provider : Provider) (endpoint : String) (userGroups : List String) (ro : ROOverride)
      (v : String),
      provider.mountpoints.find? (fun m => m.name == getPrefixOf v) = none →
      resolveMountpoint provider endpoint [("path", v)] userGroups ro =
        Except.error ⟨"Mountpoint not found for \x27" ++ getPrefixOf v ++ "\x27",
          ErrCode.num 403⟩) := by
  refine ⟨?_, ?_, ?_, ?_⟩
  · intro s
    unfold getPrefixOf
    rw [jsSplit_headD]
  · intro s h
    unfold getPrefixOf
    rw [jsSplit_headD, takeWhile_all_eq_self _ _ (fun c hc => by
      rw [bne_iff_ne]
      exact h c hc)]
  · intro provider endpoint userGroups ro v h
    rw [resolveMountpoint_singleton]
    simp [resolveStep, h]
  · intro provider endpoint userGroups ro v h
    rw [resolveMountpoint_singleton]
    by_cases hp : getPrefixOf v = ""
    · rw [hp]
      simp [resolveStep, hp]
    · simp [resolveStep, hp, h]

/-- Witness for the amended C7: `getPrefix` of the colon-free `home`
is `home` itself, and a path whose prefix names no mountpoint fails
with the not-found error. -/
theorem vfs_C7_amended_prefixes_witness :
    getPrefixOf ("home") = "home" ∧
    resolveMountpoint ⟨[], []⟩ ("readfile") [("path", "nocolon")] [] (ROOverride.bool false) =
      Except.error ⟨"Mountpoint not found for \x27nocolon\x27", ErrCode.num 403⟩ := by
  constructor
  · exact vfs_C7_amended_prefixes.2.1 ("home") (by decide)
  · exact vfs_C7_amended_prefixes.2.2.2 ⟨[], []⟩ ("readfile") [] (ROOverride.bool false)
      ("nocolon") rfl

/-- Claim C10 (confirmed): `sanitize` is partial — on every input that
does not consist of a non-empty word-character prefix followed by a
colon (a colon-free path, or a prefix with a non-word character such as
`my-mount:file`), the regex match comes back `null` and the destructured
access throws, modelled by `none`; consequently any request carrying
such a value in its `path`, `from`, `to` or `root` field dies in the
dispatcher's field-sanitization step — no resolution is consulted, no
adapter call is made, and the promise chain rejects unhandled
(regardless of provider, groups or adapter behaviour). -/
theorem vfs_C10_sanitize_partial :
    (∀ s : String, ¬ wordColonShape s → sanitize s = none) ∧
    (∀ (provider : Provider) (endpoint : String) (ro : ROOverride) (userGroups : List String)
      (fields : Fields) (files : Files) (beh : Call → Except JsErr Value) (k v : String),
      (k = "path" ∨ k = "from" ∨ k = "to" ∨ k = "root") →
      lookupField fields k = some v → ¬ wordColonShape v →
      requestModel provider endpoint ro userGroups fields files beh =
        ([], Response.unhandled)) := by
  constructor
  · exact sanitize_eq_none_of_not_shape
  · intro provider endpoint ro userGroups fields files beh k v hk hv hshape
    unfold requestModel
    rw [sanitizeFields_eq_none fields k v hk hv (sanitize_eq_none_of_not_shape v hshape)]

/-- Witness for C10: the prefix `my-mount` contains `-`, which is not
a word character, so sanitization throws and the dispatcher performs no
call at all — even though a mountpoint exists. -/
theorem vfs_C10_sanitize_partial_witness :
    sanitize ("my-mount:file") = none ∧
    requestModel ⟨[⟨"home", none, [], false⟩], []⟩ ("readfile") (ROOverride.bool false) []
      [("path", "my-mount:file")] [] (fun _ => Except.ok Value.null) =
      ([], Response.unhandled) := by
  constructor
  · exact vfs_C10_sanitize_partial.1 ("my-mount:file")
      (fun hs => absurd ((wordColonShape_iff _).mp hs) (by decide))
  · exact vfs_C10_sanitize_partial.2 ⟨[⟨"home", none, [], false⟩], []⟩ ("readfile")
      (ROOverride.bool false) [] [("path", "my-mount:file")] [] (fun _ => Except.ok Value.null)
      ("path") ("my-mount:file") (Or.inl rfl) rfl
      (fun hs => absurd ((wordColonShape_iff _).mp hs) (by decide))

/-- Witness for C9: a concrete sanitization (collapsing the double
slash and dropping the illegal `?`) whose output sanitizes to itself,
the second half obtained by applying the idempotence theorem. -/
theorem vfs_C9_sanitize_idempotent_witness :
    sanitize ("home:/a//b?.txt") = some ("home:/a/b.txt") ∧
    sanitize ("home:/a/b.txt") = some ("home:/a/b.txt") :=
  ⟨by decide, vfs_C9_sanitize_idempotent ("home:/a//b?.txt") ("home:/a/b.txt") (by decide)⟩

end OsjsVfs
